import Mathlib

/-!
Verification of the CLI reference-generation pipeline
(`docs/scripts/cli_reference_generation/scan_cli.py` and
`docs/scripts/cli_reference_generation/transform_to_markdown.py`, plus the
`slugify` of `docs/scripts/aztecjs_reference_generation/transform_to_markdown.py`).

The Python code is shallowly embedded over `List Char` / `String`:
each helper below carries a comment naming the Python construct it embeds.
Python's ASCII-oriented text operations (`str.strip`, `str.lower`,
`str.isalnum`, the regexes of the two parsers) are modelled on ASCII
characters, which is the alphabet the scanned help text lives in.
-/

namespace AztecCliDocs

/-- Python whitespace for `str.strip` / regex `\s` (ASCII fragment):
space, tab, newline, carriage return, vertical tab, form feed. -/
def isPySpace (c : Char) : Bool :=
  c == ' ' || c == '\t' || c == '\n' || c == '\r' || c == '\x0b' || c == '\x0c'

/-- `str.lstrip()` on a list of characters. -/
def pyLStrip (l : List Char) : List Char := l.dropWhile isPySpace

/-- `str.strip()` on a list of characters: drop whitespace from both ends. -/
def pyStripL (l : List Char) : List Char :=
  ((l.dropWhile isPySpace).reverse.dropWhile isPySpace).reverse

/-- `str.strip()` on a `String`. -/
def pyStrip (s : String) : String := ⟨pyStripL s.data⟩

/-- `needle in hay` (Python substring containment). -/
def containsSub (needle : List Char) : List Char → Bool
  | [] => needle.isEmpty
  | c :: rest => needle.isPrefixOf (c :: rest) || containsSub needle rest

/-- `hay.startswith(pre)` (Python). -/
def startsWith (pre l : List Char) : Bool := pre.isPrefixOf l

/-- `text.split('\n')`, accumulator form. -/
def splitLinesAux : List Char → List Char → List (List Char)
  | acc, [] => [acc.reverse]
  | acc, c :: rest =>
    if c = '\n' then acc.reverse :: splitLinesAux [] rest
    else splitLinesAux (c :: acc) rest

/-- `text.split('\n')` (Python). -/
def splitLines (l : List Char) : List (List Char) := splitLinesAux [] l

/-- `line.replace('Usage:', '')` (Python `str.replace` removes every
non-overlapping occurrence, scanning left to right). -/
def removeUsage : List Char → List Char
  | 'U' :: 's' :: 'a' :: 'g' :: 'e' :: ':' :: rest => removeUsage rest
  | c :: rest => c :: removeUsage rest
  | [] => []

/-- `s * n` for strings (Python string repetition). -/
def repeatStr (s : String) : Nat → String
  | 0 => ""
  | n + 1 => s ++ repeatStr s n

/-- ASCII `str.lower()` on one character: `'A'..'Z'` (code points 65–90)
map to `'a'..'z'` (code point + 32), everything else is unchanged. -/
def pyLower (c : Char) : Char :=
  if h : 65 ≤ c.toNat ∧ c.toNat ≤ 90 then
    Char.ofNatAux (c.toNat + 32) (Or.inl (by omega))
  else c

/-- `text.replace(a, b)` for single characters (Python). -/
def pyReplaceChar (a b : Char) (l : List Char) : List Char :=
  l.map (fun c => if c = a then b else c)

/-- Helper for `ansiStrip`: given the text following an ESC character,
recognise `\[[0-9;]*[a-zA-Z]` (the rest of one ANSI escape sequence) and
return the remainder, or `none` when the sequence does not match there
(greedily taking the digit/semicolon run cannot be backtracked into a
match, since a shorter run leaves a digit or semicolon where the final
letter is required). -/
def ansiSeqEnd (l : List Char) : Option (List Char) :=
  match l with
  | '[' :: r =>
    let run := r.takeWhile (fun c => c.isDigit || c == ';')
    match r.drop run.length with
    | c :: rest => if c.isAlpha then some rest else none
    | [] => none
  | _ => none

/-- Strip ANSI escape sequences, embedding
`re.compile(r'\x1b\[[0-9;]*[a-zA-Z]').sub('', output)` from
`CLIScanner.run_command`: an ESC, `[`, a run of digits/semicolons, and a
terminating ASCII letter are deleted; an ESC not heading such a sequence is
kept and scanning resumes after it.  The fuel argument makes the recursion
structural; every step consumes at least one character, so starting the
fuel at the text length (as `ansiStrip` does) the `0` case is never
reached. -/
def ansiStripGo : Nat → List Char → List Char
  | _, [] => []
  | 0, l => l
  | fuel + 1, c :: rest =>
    if c = '\x1b' then
      match ansiSeqEnd rest with
      | some rest2 => ansiStripGo fuel rest2
      | none => c :: ansiStripGo fuel rest
    else c :: ansiStripGo fuel rest

/-- `re.compile(r'\x1b\[[0-9;]*[a-zA-Z]').sub('', output)`. -/
def ansiStrip (l : List Char) : List Char := ansiStripGo l.length l

/-! ### Regex-derived matchers

Each function below embeds one concrete Python regex from the source,
with Python's leftmost / greedy / lazy matching semantics unfolded by hand
for that specific pattern. -/

/-- ASCII letter, the regex class `[a-zA-Z]` / `[A-Z]` tests use
`Char.isAlpha` / `Char.isUpper`, which are exactly those ASCII ranges. -/
def isNonSpace (c : Char) : Bool := !isPySpace c

/-- Tail of `re.match(r'\s+(-[^,\s]+)?(?:,\s+)?(--[^\s]+(?:\s+<[^>]+>)?)\s+(.*)', line)`
after groups 1 and the optional comma: parses `--[^\s]+(?:\s+<[^>]+>)?\s+(.*)`,
returning (group 2, group 3). The greedy `[^\s]+` can only take its maximal
run (anything shorter is followed by a non-space, which neither the optional
placeholder nor `\s+` accepts), and the optional placeholder backtracks to
absent when the rest fails, matching Python's engine. -/
def matchG2 : List Char → Option (List Char × List Char)
  | '-' :: '-' :: r =>
    let run := r.takeWhile isNonSpace
    if run.isEmpty then none
    else
      let after := r.drop run.length
      let core := '-' :: '-' :: run
      let finish : List Char → List Char → Option (List Char × List Char) :=
        fun cap rest =>
          let ws := rest.takeWhile isPySpace
          if ws.isEmpty then none else some (cap, rest.drop ws.length)
      let withPlaceholder : Option (List Char × List Char) :=
        let ws2 := after.takeWhile isPySpace
        if ws2.isEmpty then none
        else
          match after.drop ws2.length with
          | '<' :: a2 =>
            let inner := a2.takeWhile (· ≠ '>')
            if inner.isEmpty then none
            else
              match a2.drop inner.length with
              | '>' :: a3 =>
                finish (core ++ ws2 ++ '<' :: (inner ++ ['>'])) a3
              | _ => none
          | _ => none
      withPlaceholder <|> finish core after
  | _ => none

/-- The optional `(?:,\s+)?` before group 2 (greedy: tried present first). -/
def matchAfterG1 (rest : List Char) : Option (List Char × List Char) :=
  (match rest with
   | ',' :: r =>
     let ws := r.takeWhile isPySpace
     if ws.isEmpty then none else matchG2 (r.drop ws.length)
   | _ => none) <|> matchG2 rest

/-- Group 1 `(-[^,\s]+)?` with Python's greedy backtracking: candidate
lengths for `[^,\s]+` are tried longest first, then the group absent. -/
def tryG1 (rest : List Char) : Nat → Option (List Char × List Char × List Char)
  | 0 => (matchAfterG1 rest).map (fun (lg, ds) => ([], lg, ds))
  | k + 1 =>
    (match rest with
     | '-' :: r =>
       (matchAfterG1 (rest.drop (k + 2))).map
         (fun (lg, ds) => ('-' :: r.take (k + 1), lg, ds))
     | _ => none) <|> tryG1 rest k

/-- `re.match(r'\s+(-[^,\s]+)?(?:,\s+)?(--[^\s]+(?:\s+<[^>]+>)?)\s+(.*)', line)`
from `CLIScanner.parse_commander_help`, returning
(group 1 or `[]`, group 2, group 3). -/
def matchCommanderOption (line : List Char) : Option (List Char × List Char × List Char) :=
  let ws := line.takeWhile isPySpace
  if ws.isEmpty then none
  else
    let rest := line.drop ws.length
    match rest with
    | '-' :: r => tryG1 rest ((r.takeWhile (fun c => c ≠ ',' && isNonSpace c)).length)
    | _ => none

/-- `re.split(r'\s{2,}', s, maxsplit=1)`: find the leftmost run of two or
more whitespace characters; the separator is the maximal run there. Returns
`none` when no such run exists (Python then returns the 1-element list). -/
def split2 : List Char → Option (List Char × List Char)
  | c1 :: c2 :: rest =>
    if isPySpace c1 && isPySpace c2 then
      let run := (c1 :: c2 :: rest).takeWhile isPySpace
      some ([], (c1 :: c2 :: rest).drop run.length)
    else
      (split2 (c2 :: rest)).map (fun (l, r) => (c1 :: l, r))
  | _ => none

/-- Lazy body of `([A-Z][A-Z\s]+?)\s*$`: the minimal `m ≥ 1` such that the
first `m` characters are all in `[A-Z\s]` and the remainder is all
whitespace; returns those `m` characters. -/
def lazyUpperRun : List Char → Option (List Char)
  | [] => none
  | c :: rest =>
    if c.isUpper || isPySpace c then
      if rest.all isPySpace then some [c]
      else (lazyUpperRun rest).map (c :: ·)
    else none

/-- `re.match(r'^\s{2}([A-Z][A-Z\s]+?)\s*$', line)` from
`CLIScanner.parse_custom_help`: exactly two leading whitespace characters,
an uppercase letter, then the lazy run; returns group 1. -/
def matchSectionHeader (line : List Char) : Option (List Char) :=
  match line with
  | c1 :: c2 :: c3 :: rest =>
    if isPySpace c1 && isPySpace c2 && c3.isUpper then
      (lazyUpperRun rest).map (c3 :: ·)
    else none
  | _ => none

/-- Lazy body of `(--.+?)\s{2,}`: after `--`, the minimal `j ≥ 1` such that
the next two characters are both whitespace; returns the `j` consumed
characters (`.` matches any character but newline, including single
spaces). -/
def lazyUntilTwoSpaces : List Char → Option (List Char)
  | [] => none
  | [_] => none
  | c :: d :: rest =>
    if isPySpace d && (match rest with | e :: _ => isPySpace e | [] => false) then
      some [c]
    else (lazyUntilTwoSpaces (d :: rest)).map (c :: ·)

/-- `re.match(r'^\s+(--.+?)\s{2,}', line)` from `CLIScanner.parse_custom_help`:
one or more leading whitespace characters, `--`, then the lazy run up to a
run of two or more whitespace characters; returns group 1. -/
def matchOptionFlag (line : List Char) : Option (List Char) :=
  let ws := line.takeWhile isPySpace
  if ws.isEmpty then none
  else
    match line.drop ws.length with
    | c :: d :: r =>
      if c = '-' ∧ d = '-' then (lazyUntilTwoSpaces r).map (fun j => '-' :: '-' :: j)
      else none
    | _ => none

/-- One attempt of `\(default:\s*([^)]+)\)` anchored at the current
position: after the literal `(default:`, the greedy `[^)]+` takes the whole
run up to the first `)`, with `\s*` backtracking to leave it at least one
character. Returns group 1. -/
def tryDefaultAt (l : List Char) : Option (List Char) :=
  if startsWith "(default:".data l then
    let after := l.drop 9
    let total := after.takeWhile (· ≠ ')')
    if total.isEmpty then none
    else if after.length = total.length then none  -- no closing ')'
    else
      let nonWs := total.dropWhile isPySpace
      some (if nonWs.isEmpty then [total.getLastD ' '] else nonWs)
  else none

/-- `re.search(r'\(default:\s*([^)]+)\)', line)`: leftmost position where
the pattern matches; returns group 1. -/
def searchDefault : List Char → Option (List Char)
  | [] => none
  | c :: rest => tryDefaultAt (c :: rest) <|> searchDefault rest

/-- One attempt of `\(\$([^)]+)\)` anchored at the current position. -/
def tryEnvAt (l : List Char) : Option (List Char) :=
  if startsWith "($".data l then
    let after := l.drop 2
    let total := after.takeWhile (· ≠ ')')
    if total.isEmpty then none
    else if after.length = total.length then none  -- no closing ')'
    else some total
  else none

/-- `re.search(r'\(\$([^)]+)\)', line)`: leftmost match; returns group 1. -/
def searchEnv : List Char → Option (List Char)
  | [] => none
  | c :: rest => tryEnvAt (c :: rest) <|> searchEnv rest

/-- `re.match(r'^\s{10,}(.+)', line)` from the continuation-description
branch of `CLIScanner.parse_custom_help`: at least ten leading whitespace
characters, then at least one further character; returns group 1 (the
greedy `\s{10,}` takes the whole leading run). -/
def matchContinuation (line : List Char) : Option (List Char) :=
  let ws := line.takeWhile isPySpace
  if ws.length < 10 then none
  else
    let rest := line.drop ws.length
    if rest.isEmpty then none else some rest

/-- The `[A-Z\s]+$` tail of the format-detection regex, anchored at the
current position: some non-empty run of uppercase/whitespace characters
(`\s` may itself consume newlines, letting a match span several physical
lines) after which the MULTILINE `$` holds, i.e. the text ends or the next
character is a newline.  The run is greedy in Python, but only the
existence of a match is consumed (`re.search` in a Boolean position), and
existence is quantifier-order independent. -/
def upperRunEndsAtLineEnd : List Char → Bool
  | [] => false
  | c :: rest =>
    (c.isUpper || isPySpace c) &&
      ((rest.isEmpty || rest.head? == some '\n') || upperRunEndsAtLineEnd rest)

/-- One anchored attempt of `^\s{2}[A-Z][A-Z\s]+$` (MULTILINE): two
whitespace characters (possibly newlines), an uppercase letter, then the
run above. -/
def matchSectionAt : List Char → Bool
  | c1 :: c2 :: c3 :: rest =>
    isPySpace c1 && isPySpace c2 && c3.isUpper && upperRunEndsAtLineEnd rest
  | _ => false

/-- The anchored attempts at every position following a newline. -/
def searchAfterNL : List Char → Bool
  | [] => false
  | c :: rest => (c = '\n' && matchSectionAt rest) || searchAfterNL rest

/-- `re.search(r'^\s{2}[A-Z][A-Z\s]+$', help_output, re.MULTILINE)` from
`CLIScanner.scan_command` as a Boolean: with `re.MULTILINE`, `^` anchors
the pattern at the start of the text and right after every newline. -/
def searchSectionML (l : List Char) : Bool :=
  matchSectionAt l || searchAfterNL l

/-! ### Data model

`scan_command` returns Python dicts; they are modelled by `ScanNode`, a
record whose `Option` fields mirror presence/absence of the corresponding
dict keys. `subcommands` is a list of (name, node) pairs in insertion
order; the scanner only ever writes the `"subcommands"` key when the dict
is non-empty (`if subcommands:`), so the empty list models the absent key. -/

/-- One entry of `result["options"]` in `parse_commander_help`
(`{"short": ..., "long": ..., "description": ...}`; `short` is `""` when
group 1 was absent). -/
structure CommanderOption where
  short : String
  long : String
  description : String
deriving Repr, DecidableEq

/-- One entry of `result["commands"]` in `parse_commander_help`
(`{"name": ..., "signature": ..., "description": ...}`). -/
structure CommanderCommand where
  name : String
  signature : String
  description : String
deriving Repr, DecidableEq

/-- One entry of a section's `options` in `parse_custom_help`
(`{"flag": ..., "default": ..., "env": ..., "description": ...}`;
`default` and `env` are `None` when their regex did not match). -/
structure CustomOption where
  flag : String
  default : Option String
  env : Option String
  description : String
deriving Repr, DecidableEq

/-- One entry of `result["sections"]` in `parse_custom_help`. -/
structure CustomSection where
  name : String
  options : List CustomOption
deriving Repr, DecidableEq

/-- Result dict of `parse_commander_help`. -/
structure CommanderParse where
  usage : String
  description : String
  options : List CommanderOption
  commands : List CommanderCommand
deriving Repr, DecidableEq

/-- Result dict of `parse_custom_help` (its `usage` and `description` are
initialised to `""` and never assigned). -/
structure CustomParse where
  usage : String
  description : String
  sections : List CustomSection
deriving Repr, DecidableEq

/-! ### `parse_commander_help` -/

/-- The line cursor of `parse_commander_help` (`current_section`). -/
inductive CmdrSection where
  | options
  | commands
deriving Repr, DecidableEq

/-- Fold state of `parse_commander_help`: the result dict under
construction plus `current_section`. -/
structure CmdrState where
  res : CommanderParse
  current : Option CmdrSection
deriving Repr, DecidableEq

/-- One iteration of the `for i, line in enumerate(lines)` loop of
`CLIScanner.parse_commander_help`, translating its `if/elif` chain in
source order. -/
def commanderStep (st : CmdrState) (line : List Char) : CmdrState :=
  if startsWith "Usage:".data (pyStripL line) then
    { st with res := { st.res with usage := ⟨pyStripL (removeUsage line)⟩ } }
  else if containsSub "Options:".data line then
    { st with current := some .options }
  else if containsSub "Commands:".data line || containsSub "Arguments:".data line then
    { st with current := some .commands }
  else if !(pyStripL line).isEmpty && line.head? ≠ some ' ' && st.current = none then
    -- description: first such line after a captured usage line
    if !st.res.usage.isEmpty && st.res.description.isEmpty then
      { st with res := { st.res with description := ⟨pyStripL line⟩ } }
    else st
  else if st.current = some .options && startsWith "-".data (pyStripL line) then
    match matchCommanderOption line with
    | some (sh, lg, ds) =>
      { st with res := { st.res with options := st.res.options ++
          [{ short := ⟨sh⟩, long := ⟨lg⟩, description := ⟨pyStripL ds⟩ }] } }
    | none => st
  else if st.current = some .commands && !(pyStripL line).isEmpty &&
      !startsWith "Additional".data (pyStripL line) then
    let stripped := pyStripL line
    if !stripped.isEmpty && !startsWith "-".data stripped then
      match split2 stripped with
      | some (left, right) =>
        let cmd_full := pyStripL left
        -- `cmd_full.split()[0]`: the leading run of non-whitespace
        -- characters (`cmd_full` is non-empty and starts with a
        -- non-whitespace character, so the run is the first token)
        let cmd_name := cmd_full.takeWhile isNonSpace
        { st with res := { st.res with commands := st.res.commands ++
            [{ name := ⟨cmd_name⟩, signature := ⟨cmd_full⟩,
               description := ⟨pyStripL right⟩ }] } }
      | none => st
    else st
  else st

/-- `CLIScanner.parse_commander_help`. -/
def parse_commander_help (help_text : List Char) : CommanderParse :=
  ((splitLines help_text).foldl commanderStep
    { res := { usage := "", description := "", options := [], commands := [] },
      current := none }).res

/-! ### `parse_custom_help`

Python mutates `current_section` (always the last appended section) and
`current_option` (the last appended option, pointed at by indices because
it survives later section headers) in place; the fold state makes both
explicit. -/

/-- Fold state of `parse_custom_help`: sections so far, whether a
`current_section` exists (always the last of `sections`), and the
(section index, option index) of `current_option` when one exists. -/
structure CustomState where
  sections : List CustomSection
  curSec : Bool
  curOpt : Option (Nat × Nat)
deriving Repr, DecidableEq

/-- Write `current_option["description"] = d`: in-place update at the
stored indices. -/
def setOptionDesc (secs : List CustomSection) (i j : Nat) (d : String) :
    List CustomSection :=
  match secs[i]? with
  | none => secs
  | some sec =>
    match sec.options[j]? with
    | none => secs
    | some opt => secs.set i { sec with options := sec.options.set j { opt with description := d } }

/-- One iteration of the `for line in lines` loop of
`CLIScanner.parse_custom_help`. -/
def customStep (st : CustomState) (line : List Char) : CustomState :=
  match matchSectionHeader line with
  | some name =>
    if !startsWith "-".data (pyStripL line) then
      -- new section appended; `current_option` is NOT reset
      { st with sections := st.sections ++ [{ name := ⟨pyStripL name⟩, options := [] }],
                curSec := true }
    else customOptionPart st line
  | none => customOptionPart st line
where
  /-- The `if current_section:` body. -/
  customOptionPart (st : CustomState) (line : List Char) : CustomState :=
    if st.curSec then
      match matchOptionFlag line with
      | some flag =>
        let opt : CustomOption :=
          { flag := ⟨pyStripL flag⟩,
            default := (searchDefault line).map (fun d => ⟨pyStripL d⟩),
            env := (searchEnv line).map (fun e => ⟨pyStripL e⟩),
            description := "" }
        let i := st.sections.length - 1
        let j := (st.sections.getLastD { name := "", options := [] }).options.length
        { st with
          sections := st.sections.set i
            (match st.sections[i]? with
             | some sec => { sec with options := sec.options ++ [opt] }
             | none => { name := "", options := [] }),
          curOpt := some (i, j) }
      | none =>
        match st.curOpt with
        | some (i, j) =>
          if !(pyStripL line).isEmpty && !startsWith "--".data (pyStripL line) then
            match matchContinuation line with
            | some d => { st with sections := setOptionDesc st.sections i j ⟨pyStripL d⟩ }
            | none => st
          else st
        | none => st
    else st

/-- `CLIScanner.parse_custom_help`. -/
def parse_custom_help (help_text : List Char) : CustomParse :=
  { usage := "", description := "",
    sections := ((splitLines help_text).foldl customStep
      { sections := [], curSec := false, curOpt := none }).sections }

/-! ### The scanner (`CLIScanner.scan_command`) -/

/-- The dict returned by `scan_command` (and consumed by the Markdown
generator): each field models one possible dict key, `none`/`[]` meaning
the key is absent. -/
structure ScanNode where
  error : Option String := none
  error_type : Option String := none
  error_preview : Option String := none
  format : Option String := none
  usage : Option String := none
  description : Option String := none
  options : Option (List CommanderOption) := none
  commands : Option (List CommanderCommand) := none
  sections : Option (List CustomSection) := none
  raw_help : Option String := none
  subcommands : List (String × ScanNode) := []
deriving Repr

/-- `{"error": e}` — the error dicts returned by the guard branches. -/
def mkErrNode (e : String) : ScanNode := { error := some e, subcommands := [] }

/-- Mutable scanner state: `self.visited` (a set, modelled as the list of
keys in insertion order) together with the log of external invocations
performed (`subprocess.run` calls), which the source performs as a side
effect. -/
structure ScanS where
  visited : List String
  calls : List (List String)
deriving Repr, DecidableEq

/-- The external collaborator: for an argument list, the combined
stdout+stderr text of the probed program, or `none` on timeout or
invocation failure.  `CLIScanner.run_command` post-processes its output
with `ansiStrip`. -/
def Oracle : Type := List String → Option String

/-- `CLIScanner.run_command` result for a given oracle: combined output
with ANSI escapes stripped, `none` on timeout/failure. -/
def run_command (oracle : Oracle) (cmd : List String) : Option (List Char) :=
  (oracle cmd).map (fun s => ansiStrip s.data)

/-- `error_markers` of `scan_command`. -/
def errorMarkers : List String :=
  ["ERROR: cli Error in command execution",
   "TypeError: Do not know how to serialize",
   "TypeError:",
   "Error:",
   "at JSON.stringify"]

/-- The condition of
`if parent_help and help_output.strip() == parent_help.strip():`
(a `None` or empty `parent_help` is falsy). -/
def parentMatches (parent_help : Option String) (help_output : List Char) : Bool :=
  match parent_help with
  | some ph => !ph.isEmpty && pyStripL help_output == pyStripL ph.data
  | none => false

/-- `CLIScanner.scan_command(cmd_path, depth, parent_help)`, with the
scanner state threaded explicitly and recursion paced by a fuel parameter
(structurally decreasing; the `depth > 5` guard means that any
`fuel ≥ 7 - depth` behaves like the unbounded source recursion, and every
theorem below quantifies over the fuel).  The
`for cmd in parsed.get("commands", [])` loop of the source is the `foldl`
in the commander branch: it recursively scans each named command except
the literal `help`, passing the current help text as `parent_help` and
`depth + 1`, and keeps every result (error nodes included). -/
def scan_command : Nat → Oracle → List String → Nat → Option String →
    ScanS → ScanNode × ScanS
  | 0, _, _, _, _, s => (mkErrNode "fuel_exhausted", s)
  | fuel + 1, oracle, cmd_path, depth, parent_help, s =>
    let cmd_str := String.intercalate " " cmd_path
    -- Avoid infinite loops
    if cmd_str ∈ s.visited then (mkErrNode "already_visited", s)
    else
      let s := { s with visited := s.visited ++ [cmd_str] }
      -- Limit depth to prevent runaway recursion
      if depth > 5 then (mkErrNode "max_depth_exceeded", s)
      else
        let probe := cmd_path ++ ["--help"]
        let s := { s with calls := s.calls ++ [probe] }
        match run_command oracle probe with
        | none => (mkErrNode "no_help_output", s)
        | some help_output =>
          if help_output.isEmpty then (mkErrNode "no_help_output", s)
          else if parentMatches parent_help help_output then
            (mkErrNode "invalid_subcommand", s)
          else if errorMarkers.any (fun m => containsSub m.data help_output) then
            ({ error := some "command_execution_error",
               error_type := some (if containsSub "BigInt".data help_output
                 then "bigint_serialization" else "unknown"),
               error_preview := some ⟨help_output.take 200⟩,
               subcommands := [] }, s)
          else if containsSub "Usage:".data help_output &&
              containsSub "Commands:".data help_output then
            -- Commander.js style
            let parsed := parse_commander_help help_output
            let (subs, s') := parsed.commands.foldl
              (fun acc c =>
                if c.name = "help" then acc
                else
                  let (sub, s2) := scan_command fuel oracle (cmd_path ++ [c.name])
                    (depth + 1) (some ⟨help_output⟩) acc.2
                  (acc.1 ++ [(c.name, sub)], s2))
              ([], s)
            ({ format := some "commander",
               usage := some parsed.usage,
               description := some parsed.description,
               options := some parsed.options,
               commands := some parsed.commands,
               subcommands := subs }, s')
          else if searchSectionML help_output then
            -- Custom format (like 'aztec start')
            let parsed := parse_custom_help help_output
            ({ format := some "custom",
               usage := some parsed.usage,
               description := some parsed.description,
               sections := some parsed.sections,
               subcommands := [] }, s)
          else
            ({ format := some "raw", raw_help := some ⟨help_output⟩,
                subcommands := [] }, s)

/-- `CLIScanner.scan` starts the recursion at `[base_command]`,
`depth = 0`, `parent_help = None`, fresh visited set.  7 units of fuel are
enough for the depth guard to be the binding constraint. -/
def scan (oracle : Oracle) (base_command : String) : ScanNode × ScanS :=
  scan_command 7 oracle [base_command] 0 none { visited := [], calls := [] }

/-! ### The two slug functions -/

/-- `MarkdownGenerator.slugify` of
`cli_reference_generation/transform_to_markdown.py`:
`text.lower().replace(' ', '-').replace('/', '-')`. -/
def cliSlugify (text : String) : String :=
  ⟨pyReplaceChar '/' '-' (pyReplaceChar ' ' '-' (text.data.map pyLower))⟩

/-- One pass of `slug.replace('--', '-')` (left-to-right, non-overlapping:
at each position, if the next two characters are `--` emit one `-` and skip
both, otherwise emit the character and advance by one). -/
def replDD : List Char → List Char
  | [] => []
  | [c] => [c]
  | c :: d :: rest =>
    if c == '-' && d == '-' then '-' :: replDD rest
    else c :: replDD (d :: rest)

/-- `'--' in slug`. -/
def hasDD : List Char → Bool
  | [] => false
  | [_] => false
  | c :: d :: rest => (c == '-' && d == '-') || hasDD (d :: rest)

theorem replDD_length_le (l : List Char) : (replDD l).length ≤ l.length := by
  induction l using replDD.induct with
  | case1 => simp [replDD]
  | case2 c => simp [replDD]
  | case3 c d rest h ih => simp only [replDD, if_pos h, List.length_cons]; omega
  | case4 c d rest h ih => simp only [replDD, if_neg h, List.length_cons]; simpa using ih

theorem replDD_length_lt (l : List Char) (h : hasDD l = true) :
    (replDD l).length < l.length := by
  induction l using replDD.induct with
  | case1 => simp [hasDD] at h
  | case2 c => simp [hasDD] at h
  | case3 c d rest hdd ih =>
    have := replDD_length_le rest
    simp only [replDD, if_pos hdd, List.length_cons]
    omega
  | case4 c d rest hdd ih =>
    simp only [hasDD, hdd, Bool.false_or] at h
    simp only [replDD, if_neg hdd, List.length_cons]
    exact Nat.succ_lt_succ (ih h)

set_option linter.unusedVariables false in
/-- The `while '--' in slug: slug = slug.replace('--', '-')` loop of the
aztecjs `slugify`. -/
def collapseDD (l : List Char) : List Char :=
  if h : hasDD l = true then collapseDD (replDD l) else l
termination_by l.length
decreasing_by exact replDD_length_lt l h

/-- `slug.strip('-')`: remove leading and trailing `'-'` characters. -/
def pyStripDashes (l : List Char) : List Char :=
  ((l.dropWhile (· = '-')).reverse.dropWhile (· = '-')).reverse

/-- `MarkdownGenerator.slugify` of
`aztecjs_reference_generation/transform_to_markdown.py`: lowercase, map
space/slash/dot/underscore to `-`, keep only alphanumerics and `-`,
collapse `--` runs, strip outer `-`.  `c.isalnum()` is modelled by
`Char.isAlphanum` (ASCII letters and digits). -/
def azSlugify (text : String) : String :=
  let slug := text.data.map pyLower
  let slug := pyReplaceChar ' ' '-' slug
  let slug := pyReplaceChar '/' '-' slug
  let slug := pyReplaceChar '.' '-' slug
  let slug := pyReplaceChar '_' '-' slug
  let slug := slug.filter (fun c => c.isAlphanum || c = '-')
  let slug := collapseDD slug
  ⟨pyStripDashes slug⟩

/-! ### The Markdown generator
(`cli_reference_generation/transform_to_markdown.py`) -/

/-- `MarkdownGenerator.get_default_config()` merged with caller overrides;
a field per enumerated key.  `heading_pfx` models the `"heading_prefix"`
key (unused by the generator methods, kept for completeness). -/
structure RenderConfig where
  title : String := "CLI Reference"
  include_toc : Bool := true
  include_metadata : Bool := true
  heading_pfx : String := "#"
  show_usage : Bool := true
  show_env_vars : Bool := true
  max_depth : Nat := 5
  option_table_format : String := "list"
deriving Repr, DecidableEq

/-- The top-level data dict (`scanner.scan()` output read back from
JSON/YAML): `command`, optional `scanned_at`, and the root node under
`data`. -/
structure ScanData where
  command : String
  scanned_at : Option String
  data : ScanNode
deriving Repr

/-- Python truthiness of an optional string value fetched with `.get`
(absent key or `""` are falsy). -/
def strTruthy : Option String → Bool
  | some s => !s.isEmpty
  | none => false

/-- Python truthiness of an optional list value fetched with `.get`
(absent key or `[]` are falsy). -/
def listTruthy {α : Type} : Option (List α) → Bool
  | some l => !l.isEmpty
  | none => false

/-- `MarkdownGenerator.escape_html_entities`:
`text.replace('<', '&lt;').replace('>', '&gt;')`. -/
def escape_html_entities (s : String) : String :=
  ⟨s.data.flatMap (fun c =>
    if c = '<' then "&lt;".data else if c = '>' then "&gt;".data else [c])⟩

/-- `.replace('|', '\\|')` applied to table cell text. -/
def escapePipes (s : String) : String :=
  ⟨s.data.flatMap (fun c => if c = '|' then ['\\', '|'] else [c])⟩

/-- `MarkdownGenerator.render_options_table`. -/
def render_options_table (options : List CommanderOption) : String :=
  String.intercalate "\n"
    (["| Option | Description |", "|--------|-------------|"] ++
     options.map (fun opt =>
       let flags := pyStrip (opt.short ++ " " ++ opt.long)
       let desc := escapePipes (escape_html_entities opt.description)
       "| `" ++ flags ++ "` | " ++ desc ++ " |"))

/-- `MarkdownGenerator.render_options_list`. -/
def render_options_list (options : List CommanderOption) : String :=
  String.intercalate "\n"
    (options.map (fun opt =>
      let flags := pyStrip (opt.short ++ " " ++ opt.long)
      let desc := escape_html_entities opt.description
      "- `" ++ flags ++ "` - " ++ desc))

/-- `MarkdownGenerator.render_commander_command` (the `depth` parameter is
accepted and unused, as in the source). -/
def render_commander_command (cfg : RenderConfig) (cmd_data : ScanNode) : String :=
  let s1 := if strTruthy cmd_data.description then
      [escape_html_entities (cmd_data.description.getD "") ++ "\n"] else []
  let s2 := if cfg.show_usage && strTruthy cmd_data.usage then
      ["**Usage:**", "```bash", cmd_data.usage.getD "", "```\n"] else []
  let s3 := if listTruthy cmd_data.commands then
      ["**Available Commands:**\n"] ++
      (cmd_data.commands.getD []).map (fun c =>
        "- `" ++ c.signature ++ "` - " ++ escape_html_entities c.description) ++
      [""] else []
  let s4 := if listTruthy cmd_data.options then
      ["**Options:**\n",
       (if cfg.option_table_format = "table"
        then render_options_table (cmd_data.options.getD [])
        else render_options_list (cmd_data.options.getD [])),
       ""] else []
  String.intercalate "\n" (s1 ++ s2 ++ s3 ++ s4)

/-- Lines emitted for one option of a custom-format section. -/
def renderCustomOption (cfg : RenderConfig) (opt : CustomOption) : List String :=
  [ "- `" ++ opt.flag ++ "`" ++
      (if strTruthy opt.default then " (default: `" ++ opt.default.getD "" ++ "`)" else "") ] ++
  (if !opt.description.isEmpty then
      ["  " ++ escape_html_entities opt.description] else []) ++
  (if cfg.show_env_vars && strTruthy opt.env then
      ["  *Environment: `$" ++ opt.env.getD "" ++ "`*"] else []) ++
  [""]

/-- `MarkdownGenerator.render_custom_command` (the `depth` parameter is
accepted and unused, as in the source). -/
def render_custom_command (cfg : RenderConfig) (cmd_data : ScanNode) : String :=
  let s1 := if strTruthy cmd_data.description then
      [escape_html_entities (cmd_data.description.getD "") ++ "\n"] else []
  let s2 := (cmd_data.sections.getD []).flatMap (fun sec =>
    ["**" ++ sec.name ++ "**\n"] ++
    (if !sec.options.isEmpty then sec.options.flatMap (renderCustomOption cfg) else []))
  String.intercalate "\n" (s1 ++ s2)

/-- `MarkdownGenerator.generate_toc(cmd_data, cmd_name, depth)`.  The
recursion over the tree is paced by a structurally decreasing fuel
parameter; `generate` supplies `max_depth + 2` units, which the
`depth > max_depth` guard makes sufficient for the fuel case `0` never to
be reached, so the function behaves like the source recursion.  The
`for sub_name, sub_data in cmd_data["subcommands"].items()` loop keeps
only non-empty sub-TOCs, in order. -/
def generate_toc : Nat → RenderConfig → ScanNode → String → Nat → String
  | 0, _, _, _, _ => ""
  | fuel + 1, cfg, cmd_data, cmd_name, depth =>
    if depth > cfg.max_depth then ""
    else
      let indent := repeatStr "  " depth
      let first := indent ++ "- [" ++ cmd_name ++ "](#" ++ cliSlugify cmd_name ++ ")"
      let rest :=
        if cmd_data.format == some "commander" && !cmd_data.subcommands.isEmpty then
          (cmd_data.subcommands.map (fun p =>
            generate_toc fuel cfg p.2 (cmd_name ++ " " ++ p.1) (depth + 1))).filter
            (fun sub_toc => sub_toc != "")
        else []
      String.intercalate "\n" (first :: rest)

/-- `MarkdownGenerator.generate_command_docs(cmd_name, cmd_data, depth)`,
fuel-paced like `generate_toc`.  The subcommand loop appends every child
rendering, empty or not. -/
def generate_command_docs : Nat → RenderConfig → String → ScanNode → Nat → String
  | 0, _, _, _, _ => ""
  | fuel + 1, cfg, cmd_name, cmd_data, depth =>
    if depth > cfg.max_depth then ""
    else if cmd_data.error.isSome then
      let heading := repeatStr "#" (depth + 1)
      let error_type := cmd_data.error_type.getD "unknown"
      if error_type = "bigint_serialization" then
        heading ++ " " ++ cmd_name ++
          "\n\n*Help for this command is currently unavailable due to a technical issue with option serialization.*\n\n"
      else
        heading ++ " " ++ cmd_name ++
          "\n\n*This command help is currently unavailable due to a technical issue.*\n\n"
    else
      let heading := repeatStr "#" (depth + 1)
      let s0 := [heading ++ " " ++ cmd_name ++ "\n"]
      let s1 :=
        if cmd_data.format == some "commander" then
          [render_commander_command cfg cmd_data] ++
          (if !cmd_data.subcommands.isEmpty then
            ["\n" ++ heading ++ "# Subcommands\n"] ++
              cmd_data.subcommands.map (fun p =>
                generate_command_docs fuel cfg (cmd_name ++ " " ++ p.1) p.2 (depth + 1))
           else [])
        else if cmd_data.format == some "custom" then
          [render_custom_command cfg cmd_data]
        else if cmd_data.format == some "raw" then
          ["```", cmd_data.raw_help.getD "", "```\n"]
        else []
      String.intercalate "\n" (s0 ++ s1)

/-- `MarkdownGenerator.generate()`: title, metadata, table of contents
(only when non-empty), then the body rendered from depth 1. -/
def generate (cfg : RenderConfig) (d : ScanData) : String :=
  let s1 := if !cfg.title.isEmpty then ["# " ++ cfg.title ++ "\n"] else []
  let s2 := if cfg.include_metadata && d.scanned_at.isSome then
      ["*Generated: " ++ d.scanned_at.getD "" ++ "*\n",
       "*Command: `" ++ d.command ++ "`*\n"] else []
  let s3 := if cfg.include_toc then
      (let toc := generate_toc (cfg.max_depth + 2) cfg d.data d.command 0
       if toc != "" then ["## Table of Contents\n", toc] else [])
    else []
  let body := [generate_command_docs (cfg.max_depth + 2) cfg d.command d.data 1]
  String.intercalate "\n" (s1 ++ s2 ++ s3 ++ body)

/-! ## Claims -/

/-- C1: for every command path probed a second time within one scan (its
key `' '.join(path)` is already in `visited`), the second `scan_command`
call returns the `already_visited` error node, performs no external
invocation, and leaves the scanner state (visited set and call log)
untouched — in particular it does not recurse. -/
theorem C1_second_visit_short_circuits (fuel : Nat) (oracle : Oracle)
    (cmd_path : List String) (depth : Nat) (parent_help : Option String)
    (s : ScanS) (h : String.intercalate " " cmd_path ∈ s.visited) :
    scan_command (fuel + 1) oracle cmd_path depth parent_help s =
      (mkErrNode "already_visited", s) := by
  simp only [scan_command]
  rw [if_pos h]

/-- Witness for C1 at a concrete input: path `["a", "b"]` with key
`"a b"` already visited. -/
theorem C1_witness :
    String.intercalate " " ["a", "b"] ∈ (ScanS.mk ["a b"] []).visited ∧
    scan_command 7 (fun _ => none) ["a", "b"] 3 none ⟨["a b"], []⟩ =
      (mkErrNode "already_visited", ⟨["a b"], []⟩) :=
  ⟨by decide, C1_second_visit_short_circuits 6 _ _ _ _ _ (by decide)⟩

/-- C2 counterexample: a call at `depth = 6 > 5` whose path is already in
`visited` returns `already_visited`, not `max_depth_exceeded` — the
visited guard fires before the depth guard. -/
theorem C2_counterexample :
    (scan_command 7 (fun _ => none) ["a", "b"] 6 none ⟨["a b"], []⟩).1.error =
      some "already_visited" ∧
    (scan_command 7 (fun _ => none) ["a", "b"] 6 none ⟨["a b"], []⟩).1.error ≠
      some "max_depth_exceeded" := by
  constructor
  · rfl
  · intro hco
    rw [show (scan_command 7 (fun _ => none) ["a", "b"] 6 none ⟨["a b"], []⟩).1.error =
      some "already_visited" from rfl] at hco
    simp at hco

/-- C2 as amended: for every call at `depth > 5` whose path is NOT already
visited, the result is the `max_depth_exceeded` error node and no external
invocation occurs for that path (the call log is unchanged; only the
visited set gains the path key, which the source adds before the depth
check). -/
theorem C2_amended_max_depth (fuel : Nat) (oracle : Oracle)
    (cmd_path : List String) (depth : Nat) (parent_help : Option String)
    (s : ScanS) (h1 : String.intercalate " " cmd_path ∉ s.visited)
    (h2 : depth > 5) :
    scan_command (fuel + 1) oracle cmd_path depth parent_help s =
      (mkErrNode "max_depth_exceeded",
       ⟨s.visited ++ [String.intercalate " " cmd_path], s.calls⟩) := by
  simp only [scan_command]
  rw [if_neg h1, if_pos h2]

/-- Witness for the amended C2 at a concrete input. -/
theorem C2_amended_witness :
    (String.intercalate " " ["a", "b"] ∉ (ScanS.mk [] []).visited ∧ 6 > 5) ∧
    scan_command 7 (fun _ => none) ["a", "b"] 6 none ⟨[], []⟩ =
      (mkErrNode "max_depth_exceeded", ⟨["a b"], []⟩) :=
  ⟨⟨by decide, by decide⟩,
   C2_amended_max_depth 6 _ _ _ _ _ (by decide) (by decide)⟩

/-- The oracle of the C3 counterexample: probing `t --help` captures
`" "`, a non-empty text that strips to the empty string. -/
def oracleC3 : Oracle := fun args => if args = ["t", "--help"] then some " " else none

/-- C3 counterexample: `scan_command` on path `["t"]` with
`parent_help = some ""` (a supplied parent help) captures `" "`, whose
trimmed text `""` is character-for-character equal to that parent help;
yet the result is a `raw` node, not an `invalid_subcommand` error node,
because Python's `if parent_help and ...` treats the empty parent help as
falsy and skips the comparison. -/
theorem C3_counterexample :
    pyStrip ⟨ansiStrip " ".data⟩ = "" ∧
    (scan_command 7 oracleC3 ["t"] 0 (some "") ⟨[], []⟩).1.format = some "raw" ∧
    (scan_command 7 oracleC3 ["t"] 0 (some "") ⟨[], []⟩).1.error ≠
      some "invalid_subcommand" := by
  refine ⟨rfl, rfl, ?_⟩
  intro hco
  rw [show (scan_command 7 oracleC3 ["t"] 0 (some "") ⟨[], []⟩).1.error = none from rfl] at hco
  simp at hco

/-- C3 as amended: for every probe that reaches the parent-help comparison
(path not yet visited, depth within bound, captured text non-empty) with a
NON-EMPTY `parent_help` equal, after trimming both sides, to the captured
text, `scan_command` returns the `invalid_subcommand` error node and does
not recurse: the only external invocation recorded is the probe itself. -/
theorem C3_amended_invalid_subcommand (fuel : Nat) (oracle : Oracle)
    (cmd_path : List String) (depth : Nat) (ph : String) (s : ScanS)
    (raw : String)
    (h1 : String.intercalate " " cmd_path ∉ s.visited)
    (h2 : ¬depth > 5)
    (h3 : oracle (cmd_path ++ ["--help"]) = some raw)
    (h4 : ansiStrip raw.data ≠ [])
    (h5 : ph ≠ "")
    (h6 : pyStripL (ansiStrip raw.data) = pyStripL ph.data) :
    scan_command (fuel + 1) oracle cmd_path depth (some ph) s =
      (mkErrNode "invalid_subcommand",
       ⟨s.visited ++ [String.intercalate " " cmd_path],
        s.calls ++ [cmd_path ++ ["--help"]]⟩) := by
  simp only [scan_command]
  rw [if_neg h1, if_neg h2]
  simp only [run_command, h3, Option.map_some']
  have hne : (ansiStrip raw.data).isEmpty = false := by
    simpa [List.isEmpty_iff] using h4
  rw [if_neg (by simp [hne])]
  have hphe : ph.isEmpty = false := by
    rw [Bool.eq_false_iff]
    intro hpe
    exact h5 ((String.isEmpty_iff ph).mp hpe)
  have hpm : parentMatches (some ph) (ansiStrip raw.data) = true := by
    simp [parentMatches, hphe, h6]
  rw [if_pos hpm]

/-- Oracle for the amended-C3 witness. -/
def oracleC3w : Oracle := fun args => if args = ["t", "--help"] then some " x " else none

/-- Witness for the amended C3 at a concrete input: parent help `"x"`,
captured text `" x "`. -/
theorem C3_amended_witness :
    (let raw := " x "
     oracleC3w (["t"] ++ ["--help"]) = some raw ∧
     ansiStrip raw.data ≠ [] ∧ "x" ≠ "" ∧
     pyStripL (ansiStrip raw.data) = pyStripL "x".data) ∧
    scan_command 7 oracleC3w ["t"] 0 (some "x") ⟨[], []⟩ =
      (mkErrNode "invalid_subcommand", ⟨["t"], [["t", "--help"]]⟩) :=
  ⟨⟨rfl, by decide, by decide, by decide⟩,
   C3_amended_invalid_subcommand 6 _ _ _ _ _ _ (by decide) (by decide) rfl
     (by decide) (by decide) (by decide)⟩

/-- The serialization-failure signature of `error_markers` (its second
entry). -/
def serializationMarker : String := "TypeError: Do not know how to serialize"

/-- The oracle of the C4 counterexample: the captured text contains the
serialization-failure marker but not the substring `"BigInt"`. -/
def oracleC4 : Oracle := fun args =>
  if args = ["t", "--help"] then some "TypeError: Do not know how to serialize a Symbol" else none

/-- C4 counterexample: a captured help text containing the
serialization-failure marker is classified as an execution error, but its
`error_type` is `"unknown"`, not the serialization signature — the source
keys the sub-classification on the substring `"BigInt"`, not on the
serialization marker the claim refers to. -/
theorem C4_counterexample :
    containsSub serializationMarker.data
      "TypeError: Do not know how to serialize a Symbol".data = true ∧
    (scan_command 7 oracleC4 ["t"] 0 none ⟨[], []⟩).1.error =
      some "command_execution_error" ∧
    (scan_command 7 oracleC4 ["t"] 0 none ⟨[], []⟩).1.error_type ≠
      some "bigint_serialization" := by
  refine ⟨by decide, rfl, ?_⟩
  intro hco
  rw [show (scan_command 7 oracleC4 ["t"] 0 none ⟨[], []⟩).1.error_type =
    some "unknown" from rfl] at hco
  simp at hco

/-- C4 as amended: every captured help text reaching the marker check
(path unvisited, depth within bound, the parent-help comparison not
firing) that contains the serialization-failure marker is classified as a
`command_execution_error` node — never as a commander/custom/raw payload —
whose `error_type` is `"bigint_serialization"` exactly when the text also
contains `"BigInt"`, and `"unknown"` otherwise, with the first 200
characters as preview. -/
theorem C4_amended_execution_error (fuel : Nat) (oracle : Oracle)
    (cmd_path : List String) (depth : Nat) (parent_help : Option String)
    (s : ScanS) (raw : String)
    (h1 : String.intercalate " " cmd_path ∉ s.visited)
    (h2 : ¬depth > 5)
    (h3 : oracle (cmd_path ++ ["--help"]) = some raw)
    (h4 : containsSub serializationMarker.data (ansiStrip raw.data) = true)
    (h5 : parentMatches parent_help (ansiStrip raw.data) = false) :
    scan_command (fuel + 1) oracle cmd_path depth parent_help s =
      ({ error := some "command_execution_error",
         error_type := some (if containsSub "BigInt".data (ansiStrip raw.data)
           then "bigint_serialization" else "unknown"),
         error_preview := some ⟨(ansiStrip raw.data).take 200⟩,
         subcommands := [] },
       ⟨s.visited ++ [String.intercalate " " cmd_path],
        s.calls ++ [cmd_path ++ ["--help"]]⟩) := by
  have hne : (ansiStrip raw.data).isEmpty = false := by
    rw [Bool.eq_false_iff]
    intro hemp
    rw [List.isEmpty_iff.mp hemp] at h4
    simp [containsSub, serializationMarker] at h4
  simp only [scan_command]
  rw [if_neg h1, if_neg h2]
  simp only [run_command, h3, Option.map_some']
  rw [if_neg (by simp [hne]), if_neg (by simp [h5])]
  have hany : (errorMarkers.any fun m => containsSub m.data (ansiStrip raw.data)) = true :=
    List.any_eq_true.mpr ⟨serializationMarker, by simp [errorMarkers, serializationMarker], h4⟩
  rw [if_pos hany]

/-- Oracle for the amended-C4 witness: the genuine BigInt serialization
failure text. -/
def oracleC4w : Oracle := fun args =>
  if args = ["t", "--help"] then some "TypeError: Do not know how to serialize a BigInt" else none

/-- Witness for the amended C4 at a concrete input: the captured text
contains the marker and `"BigInt"`, and the node comes out as a
`command_execution_error` with `error_type = "bigint_serialization"`. -/
theorem C4_amended_witness :
    (containsSub serializationMarker.data
        (ansiStrip "TypeError: Do not know how to serialize a BigInt".data) = true ∧
     parentMatches none
        (ansiStrip "TypeError: Do not know how to serialize a BigInt".data) = false) ∧
    (scan_command 7 oracleC4w ["t"] 0 none ⟨[], []⟩).1.error_type =
      some "bigint_serialization" := by
  refine ⟨⟨by decide, by decide⟩, ?_⟩
  rw [C4_amended_execution_error 6 oracleC4w ["t"] 0 none ⟨[], []⟩
    "TypeError: Do not know how to serialize a BigInt"
    (by decide) (by decide) rfl (by decide) (by decide)]
  decide

/-- Oracle for C10: the probed command "succeeds" but its combined output
consists of one ANSI colour sequence, which strips to the empty string. -/
def oracleC10 : Oracle := fun args =>
  if args = ["t", "--help"] then some "\x1b[31m" else none

/-- C10: if the invocation succeeds but the combined captured output is
empty after escape stripping, `scan_command` returns the `no_help_output`
error node — and the result (node and final state) is identical to what a
timeout or invocation failure (`run_command` returning `None`) produces,
since Python's `if not help_output:` conflates `None` and `""`. -/
theorem C10_empty_output_is_no_output (fuel : Nat) (oracle₁ oracle₂ : Oracle)
    (cmd_path : List String) (depth : Nat) (parent_help : Option String)
    (s : ScanS) (raw : String)
    (h1 : String.intercalate " " cmd_path ∉ s.visited)
    (h2 : ¬depth > 5)
    (h3 : oracle₁ (cmd_path ++ ["--help"]) = some raw)
    (h4 : ansiStrip raw.data = [])
    (h5 : oracle₂ (cmd_path ++ ["--help"]) = none) :
    scan_command (fuel + 1) oracle₁ cmd_path depth parent_help s =
      (mkErrNode "no_help_output",
       ⟨s.visited ++ [String.intercalate " " cmd_path],
        s.calls ++ [cmd_path ++ ["--help"]]⟩) ∧
    scan_command (fuel + 1) oracle₂ cmd_path depth parent_help s =
      scan_command (fuel + 1) oracle₁ cmd_path depth parent_help s := by
  have part1 : scan_command (fuel + 1) oracle₁ cmd_path depth parent_help s =
      (mkErrNode "no_help_output",
       ⟨s.visited ++ [String.intercalate " " cmd_path],
        s.calls ++ [cmd_path ++ ["--help"]]⟩) := by
    simp only [scan_command]
    rw [if_neg h1, if_neg h2]
    simp only [run_command, h3, Option.map_some']
    rw [if_pos (by simp [h4])]
  refine ⟨part1, ?_⟩
  rw [part1]
  simp only [scan_command]
  rw [if_neg h1, if_neg h2]
  simp only [run_command, h5, Option.map_none']

/-- Witness for C10 at a concrete input: output `"\x1b[31m"` (a bare
colour code) against a failing invocation. -/
theorem C10_witness :
    (oracleC10 (["t"] ++ ["--help"]) = some "\x1b[31m" ∧
     ansiStrip "\x1b[31m".data = []) ∧
    scan_command 7 oracleC10 ["t"] 0 none ⟨[], []⟩ =
      (mkErrNode "no_help_output", ⟨["t"], [["t", "--help"]]⟩) :=
  ⟨⟨rfl, by decide⟩,
   (C10_empty_output_is_no_output 6 oracleC10 (fun _ => none) ["t"] 0 none
     ⟨[], []⟩ "\x1b[31m" (by decide) (by decide) rfl (by decide) rfl).1⟩

/-- C5: on the spec's example text, the Structured (commander) parser
yields usage `"tool [opts]"`, description `"A short tool."`, exactly one
command (`build`, signature `"build [x]"`, description `"Builds it"`) and
exactly one option (`-h`, `--help`, `"show help"`). -/
theorem C5_commander_parse_example :
    parse_commander_help
      "Usage: tool [opts]\nA short tool.\n\nCommands:\n  build [x]  Builds it\n\nOptions:\n  -h, --help  show help\n".data =
      { usage := "tool [opts]",
        description := "A short tool.",
        options := [{ short := "-h", long := "--help", description := "show help" }],
        commands := [{ name := "build", signature := "build [x]",
                       description := "Builds it" }] } := by
  decide

/-- `P` holds at a node and, recursively, at every node of its
`subcommands` subtrees. -/
inductive AllNodes (P : ScanNode → Prop) : ScanNode → Prop
  | mk (n : ScanNode) (hp : P n)
      (hs : ∀ p ∈ n.subcommands, AllNodes P p.2) : AllNodes P n

/-- The C9 invariant at one node: a node carrying an `error` key has no
`subcommands`. -/
def errNoChildren (n : ScanNode) : Prop :=
  n.error.isSome = true → n.subcommands = []

theorem allNodes_mkErr (e : String) : AllNodes errNoChildren (mkErrNode e) :=
  AllNodes.mk _ (fun _ => rfl) (by intro p hp; simp [mkErrNode] at hp)

/-- Helper for C9: every node accumulated by the subcommand fold satisfies
the invariant, provided the accumulator's nodes do and every recursive
scan at the next fuel level does. -/
theorem subsAll (fuel : Nat) (oracle : Oracle) (cmd_path : List String)
    (depth : Nat) (ho : String)
    (IH : ∀ (p : List String) (d : Nat) (ph : Option String) (st : ScanS),
      AllNodes errNoChildren (scan_command fuel oracle p d ph st).1) :
    ∀ (cmds : List CommanderCommand) (acc : List (String × ScanNode) × ScanS),
      (∀ p ∈ acc.1, AllNodes errNoChildren p.2) →
      ∀ p ∈ (cmds.foldl
        (fun acc c =>
          if c.name = "help" then acc
          else
            let (sub, s2) := scan_command fuel oracle (cmd_path ++ [c.name])
              (depth + 1) (some ho) acc.2
            (acc.1 ++ [(c.name, sub)], s2)) acc).1,
        AllNodes errNoChildren p.2 := by
  intro cmds
  induction cmds with
  | nil => intro acc hacc p hp; exact hacc p hp
  | cons c rest ih =>
    intro acc hacc
    simp only [List.foldl_cons]
    by_cases hc : c.name = "help"
    · rw [if_pos hc]; exact ih acc hacc
    · rw [if_neg hc]
      refine ih _ ?_
      intro p hp
      rcases List.mem_append.mp hp with h | h
      · exact hacc p h
      · rcases List.mem_singleton.mp h with rfl
        exact IH _ _ _ _

/-- C9: in every tree produced by `scan_command` (any oracle, any starting
state, any fuel), every node that carries an `error` key has no
subcommands: the scanner never attaches children to an error node. -/
theorem C9_error_nodes_have_no_children (fuel : Nat) (oracle : Oracle)
    (cmd_path : List String) (depth : Nat) (parent_help : Option String)
    (s : ScanS) :
    AllNodes errNoChildren
      (scan_command fuel oracle cmd_path depth parent_help s).1 := by
  induction fuel generalizing cmd_path depth parent_help s with
  | zero => exact allNodes_mkErr _
  | succ fuel IH =>
    rw [scan_command]
    split
    · exact allNodes_mkErr _
    · split
      · exact allNodes_mkErr _
      · dsimp only
        split
        · exact allNodes_mkErr _
        · split
          · exact allNodes_mkErr _
          · split
            · exact allNodes_mkErr _
            · split
              · exact AllNodes.mk _ (fun _ => rfl) (by intro p hp; simp at hp)
              · split
                · exact AllNodes.mk _ (by intro habs; simp at habs)
                    (subsAll fuel oracle cmd_path depth _
                      (fun p d ph st => IH p d ph st) _ ([], _)
                      (by intro p hp; simp at hp))
                · split
                  · exact AllNodes.mk _ (by intro habs; simp at habs)
                      (by intro p hp; simp at hp)
                  · exact AllNodes.mk _ (by intro habs; simp at habs)
                      (by intro p hp; simp at hp)

/-! ### C6 -/

/-- C6 counterexample: an option line followed by two continuation lines;
the parsed description is the SECOND continuation line, not the first —
each continuation overwrites the previous one, so the last is kept. -/
theorem C6_counterexample :
    (parse_custom_help
      "  NETWORK\n    --port  x\n          first desc\n          second desc".data).sections =
      [{ name := "NETWORK",
         options := [{ flag := "--port", default := none, env := none,
                       description := "second desc" }] }] ∧
    ("second desc" : String) ≠ "first desc" :=
  ⟨by decide, by decide⟩

/-- A whitespace character is not an ASCII uppercase letter. -/
theorem isUpper_eq_false_of_isPySpace {c : Char} (h : isPySpace c = true) :
    c.isUpper = false := by
  simp only [isPySpace, Bool.or_eq_true, beq_iff_eq] at h
  rcases h with ((((h | h) | h) | h) | h) | h <;> subst h <;> decide

/-- The content of a continuation line: what follows its leading
whitespace run. -/
def contBody (l : List Char) : List Char := l.drop (l.takeWhile isPySpace).length

theorem contBody_eq_dropWhile (l : List Char) :
    contBody l = l.dropWhile isPySpace := by
  induction l with
  | nil => rfl
  | cons c t ih =>
    unfold contBody at *
    by_cases hc : isPySpace c
    · simp [List.takeWhile_cons, List.dropWhile_cons, hc, ih]
    · simp [List.takeWhile_cons, List.dropWhile_cons, hc]

/-- The amended C6 conditions on one continuation line: indented by at
least ten whitespace characters, non-empty content after the indentation,
and that content not starting with a dash. -/
def isContLine (l : List Char) : Bool :=
  decide (10 ≤ (l.takeWhile isPySpace).length) && !(contBody l).isEmpty &&
    (contBody l).head? != some '-'

theorem isContLine_spec {l : List Char} (h : isContLine l = true) :
    10 ≤ (l.takeWhile isPySpace).length ∧ contBody l ≠ [] ∧
      (contBody l).head? ≠ some '-' := by
  simp only [isContLine, Bool.and_eq_true, decide_eq_true_eq, Bool.not_eq_true',
    bne_iff_ne, ne_eq] at h
  refine ⟨h.1.1, ?_, h.2⟩
  intro hco
  have h2 := h.1.2
  rw [hco] at h2
  simp at h2

/-- The head of a non-empty continuation body fails `isPySpace`, being the
first character not taken by the leading whitespace run. -/
theorem contBody_head_not_space {l : List Char} {c : Char} {t : List Char}
    (hcb : contBody l = c :: t) : isPySpace c = false := by
  have hd := List.head?_dropWhile_not isPySpace l
  rw [← contBody_eq_dropWhile, hcb] at hd
  simpa using hd

theorem matchSectionHeader_contLine {l : List Char}
    (h10 : 10 ≤ (l.takeWhile isPySpace).length) :
    matchSectionHeader l = none := by
  cases l with
  | nil => simp [List.takeWhile_nil] at h10
  | cons c1 t1 =>
    cases t1 with
    | nil =>
      have := (List.takeWhile_prefix (l := [c1]) isPySpace).length_le
      simp at this
      omega
    | cons c2 t2 =>
      cases t2 with
      | nil =>
        have := (List.takeWhile_prefix (l := [c1, c2]) isPySpace).length_le
        simp at this
        omega
      | cons c3 rest =>
        by_cases h3 : isPySpace c3
        · simp [matchSectionHeader, isUpper_eq_false_of_isPySpace h3]
        · exfalso
          by_cases h1 : isPySpace c1
          · by_cases h2 : isPySpace c2
            · simp [List.takeWhile_cons, h1, h2, h3] at h10
            · simp [List.takeWhile_cons, h1, h2] at h10
          · simp [List.takeWhile_cons, h1] at h10

theorem matchOptionFlag_contLine {l : List Char} (h : isContLine l = true) :
    matchOptionFlag l = none := by
  obtain ⟨h10, hne, hdash⟩ := isContLine_spec h
  unfold contBody at hne hdash
  simp only [matchOptionFlag]
  rw [if_neg (by
    intro hco
    rw [List.isEmpty_iff] at hco
    rw [hco] at h10
    simp at h10)]
  cases hcb : l.drop (l.takeWhile isPySpace).length with
  | nil => rfl
  | cons c t =>
    cases t with
    | nil => rfl
    | cons d r =>
      dsimp only
      rw [if_neg]
      intro hco
      rw [hcb] at hdash
      exact hdash (by simp [hco.1])

theorem matchContinuation_contLine {l : List Char} (h : isContLine l = true) :
    matchContinuation l = some (contBody l) := by
  obtain ⟨h10, hne, -⟩ := isContLine_spec h
  unfold contBody at hne ⊢
  simp only [matchContinuation]
  rw [if_neg (by omega), if_neg (by
    intro hco
    exact hne (List.isEmpty_iff.mp hco))]

theorem dropWhile_append_singleton {p : Char → Bool} {xs : List Char} {c : Char}
    (hc : p c = false) :
    (xs ++ [c]).dropWhile p = xs.dropWhile p ++ [c] := by
  induction xs with
  | nil => simp [List.dropWhile_cons, hc]
  | cons a t ih =>
    by_cases ha : p a <;> simp [List.dropWhile_cons, ha, ih]

/-- `str.strip()` of a continuation line keeps the head of its content:
the leading whitespace is dropped entirely and only trailing whitespace of
the content can go. -/
theorem pyStripL_of_contBody {l : List Char} {c : Char} {t : List Char}
    (hcb : contBody l = c :: t) (hc : isPySpace c = false) :
    pyStripL l = c :: (t.reverse.dropWhile isPySpace).reverse := by
  have hdw : l.dropWhile isPySpace = c :: t := by
    rw [← contBody_eq_dropWhile]
    exact hcb
  unfold pyStripL
  rw [hdw, List.reverse_cons, dropWhile_append_singleton hc, List.reverse_append]
  simp

/-- In-place updates of the same option's description collapse: only the
last one written survives (whether or not the indices are valid). -/
theorem setOptionDesc_overwrite (secs : List CustomSection) (i j : Nat)
    (d d' : String) :
    setOptionDesc (setOptionDesc secs i j d) i j d' = setOptionDesc secs i j d' := by
  cases hsi : secs[i]? with
  | none =>
    have e1 : setOptionDesc secs i j d = secs := by
      unfold setOptionDesc
      rw [hsi]
    rw [e1]
  | some sec =>
    cases hoj : sec.options[j]? with
    | none =>
      have e1 : setOptionDesc secs i j d = secs := by
        unfold setOptionDesc
        rw [hsi]
        dsimp only
        rw [hoj]
      rw [e1]
    | some opt =>
      obtain ⟨hi, -⟩ := List.getElem?_eq_some.mp hsi
      obtain ⟨hj, -⟩ := List.getElem?_eq_some.mp hoj
      have e1 : setOptionDesc secs i j d = secs.set i
          { sec with options := sec.options.set j { opt with description := d } } := by
        unfold setOptionDesc
        rw [hsi]
        dsimp only
        rw [hoj]
      have e2 : setOptionDesc secs i j d' = secs.set i
          { sec with options := sec.options.set j { opt with description := d' } } := by
        unfold setOptionDesc
        rw [hsi]
        dsimp only
        rw [hoj]
      rw [e1, e2]
      unfold setOptionDesc
      rw [List.getElem?_set_self hi]
      dsimp only
      rw [List.getElem?_set_self (by simpa using hj)]
      dsimp only
      rw [List.set_set, List.set_set]

/-- One continuation line processed from any state with an open section
and a current option at indices (i, j): the stored description of that
option is overwritten with the line's stripped content, and nothing else
changes. -/
theorem customStep_contLine (st : CustomState) (l : List Char) (i j : Nat)
    (hsec : st.curSec = true) (hopt : st.curOpt = some (i, j))
    (hl : isContLine l = true) :
    customStep st l =
      { st with sections := setOptionDesc st.sections i j ⟨pyStripL (contBody l)⟩ } := by
  obtain ⟨h10, hne, hdash⟩ := isContLine_spec hl
  obtain ⟨c, t, hcb⟩ := List.exists_cons_of_ne_nil hne
  have hc : isPySpace c = false := contBody_head_not_space hcb
  have hcd : c ≠ '-' := by
    intro hco
    rw [hcb, hco] at hdash
    exact hdash rfl
  have hps := pyStripL_of_contBody hcb hc
  have hsw : startsWith "--".data (pyStripL l) = false := by
    rw [hps]
    show (('-' == c) && _) = false
    rw [beq_eq_false_iff_ne.mpr (fun hh => hcd hh.symm), Bool.false_and]
  simp only [customStep, matchSectionHeader_contLine h10,
    customStep.customOptionPart, hsec, if_true, matchOptionFlag_contLine hl, hopt]
  rw [if_pos (by rw [hsw, hps]; simp), matchContinuation_contLine hl]

/-- Folding a non-empty run of continuation lines from any state with an
open section and current option (i, j): each line overwrites the stored
description, so the final state keeps exactly the LAST line's stripped
content. -/
theorem foldl_contLines (ls : List (List Char)) (st : CustomState) (i j : Nat)
    (lastLine : List Char)
    (hsec : st.curSec = true) (hopt : st.curOpt = some (i, j))
    (hls : ∀ l ∈ ls, isContLine l = true)
    (hlast : ls.getLast? = some lastLine) :
    ls.foldl customStep st =
      { st with sections := setOptionDesc st.sections i j ⟨pyStripL (contBody lastLine)⟩ } := by
  induction ls generalizing st with
  | nil => simp at hlast
  | cons l rest ih =>
    rw [List.foldl_cons, customStep_contLine st l i j hsec hopt (hls l (by simp))]
    cases rest with
    | nil =>
      have hll : lastLine = l := by
        rw [List.getLast?_singleton] at hlast
        exact (Option.some.inj hlast).symm
      subst hll
      simp [List.foldl_nil]
    | cons l2 rest2 =>
      have hlast' : (l2 :: rest2).getLast? = some lastLine := by
        rw [← List.getLast?_cons_cons (a := l)]
        exact hlast
      rw [ih { sections := setOptionDesc st.sections i j ⟨pyStripL (contBody l)⟩, curSec := st.curSec, curOpt := st.curOpt } hsec hopt (fun x hx => hls x (by simp [hx])) hlast']
      simp [setOptionDesc_overwrite]

/-- C6 as amended: for EVERY Sectioned help text in which an open option
line is followed by two or more continuation lines (each indented by at
least ten whitespace characters, with non-empty content not starting with
a dash), the parser keeps only the LAST such continuation line as that
option's description: each continuation line overwrites the stored
description.  The text is arbitrary — `pre` is any prefix of lines whose
processing leaves a section open with a current option at indices
(i, j) — and the continuation contents may contain internal spaces. -/
theorem C6_amended_last_continuation_kept (text : List Char)
    (pre ls : List (List Char)) (i j : Nat) (lastLine : List Char)
    (hsplit : splitLines text = pre ++ ls)
    (hk : 2 ≤ ls.length)
    (hls : ∀ l ∈ ls, isContLine l = true)
    (hlast : ls.getLast? = some lastLine)
    (hsec : (pre.foldl customStep
      { sections := [], curSec := false, curOpt := none }).curSec = true)
    (hopt : (pre.foldl customStep
      { sections := [], curSec := false, curOpt := none }).curOpt = some (i, j)) :
    (parse_custom_help text).sections =
      setOptionDesc (pre.foldl customStep
        { sections := [], curSec := false, curOpt := none }).sections i j
        ⟨pyStripL (contBody lastLine)⟩ := by
  unfold parse_custom_help
  rw [hsplit, List.foldl_append,
    foldl_contLines ls _ i j lastLine hsec hopt hls hlast]

/-- Witness for the amended C6 at a concrete input with multi-word
continuation contents: the first continuation line `first desc` is
discarded, the second `second desc` is kept. -/
theorem C6_amended_witness :
    (2 ≤ (["          first desc".data, "          second desc".data] :
        List (List Char)).length ∧
     ∀ l ∈ (["          first desc".data, "          second desc".data] :
        List (List Char)), isContLine l = true) ∧
    (parse_custom_help
      "  NETWORK\n    --port  x\n          first desc\n          second desc".data).sections =
      [{ name := "NETWORK",
         options := [{ flag := "--port", default := none, env := none,
                       description := "second desc" }] }] := by
  refine ⟨⟨by decide, by decide⟩, ?_⟩
  rw [C6_amended_last_continuation_kept
    "  NETWORK\n    --port  x\n          first desc\n          second desc".data
    ["  NETWORK".data, "    --port  x".data]
    ["          first desc".data, "          second desc".data] 0 0
    "          second desc".data
    (by decide) (by decide) (by decide) (by decide) (by decide) (by decide)]
  decide

/-! ### C7: properties of the two slug functions -/

theorem pyLower_fix_of_out (d : Char) (hd : d.toNat > 90 ∨ d.toNat < 65) :
    pyLower d = d := by
  unfold pyLower
  rw [dif_neg]
  omega

theorem pyLower_idem (c : Char) : pyLower (pyLower c) = pyLower c := by
  by_cases h : 65 ≤ c.toNat ∧ c.toNat ≤ 90
  · have h1 : pyLower c = Char.ofNatAux (c.toNat + 32) (Or.inl (by omega)) := by
      unfold pyLower; rw [dif_pos h]
    rw [h1]
    refine pyLower_fix_of_out _ (Or.inl ?_)
    show (Char.ofNatAux (c.toNat + 32) (Or.inl (by omega))).toNat > 90
    have heq : (Char.ofNatAux (c.toNat + 32) (Or.inl (by omega))).toNat =
        c.toNat + 32 := rfl
    omega
  · have h1 : pyLower c = c := by unfold pyLower; rw [dif_neg h]
    rw [h1, h1]

theorem map_eq_self_of {f : Char → Char} {l : List Char}
    (h : ∀ c ∈ l, f c = c) : l.map f = l := by
  induction l with
  | nil => rfl
  | cons a t ih =>
    rw [List.map_cons, h a (by simp), ih (fun c hc => h c (by simp [hc]))]

theorem mem_replDD {c : Char} {l : List Char} (h : c ∈ replDD l) : c ∈ l := by
  induction l using replDD.induct with
  | case1 => simp [replDD] at h
  | case2 => simpa [replDD] using h
  | case3 a b rest hdd ih =>
    rw [replDD, if_pos hdd] at h
    rcases List.mem_cons.mp h with rfl | h2
    · exact List.mem_cons.mpr (Or.inl (eq_of_beq (Bool.and_eq_true_iff.mp hdd).1).symm)
    · simp [ih h2]
  | case4 a b rest hdd ih =>
    rw [replDD, if_neg hdd] at h
    rcases List.mem_cons.mp h with rfl | h2
    · simp
    · simp [ih h2]

theorem mem_collapseDD_aux (n : Nat) : ∀ (l : List Char), l.length ≤ n →
    ∀ {c : Char}, c ∈ collapseDD l → c ∈ l := by
  induction n with
  | zero =>
    intro l hl c h
    have : l = [] := List.length_eq_zero.mp (Nat.le_zero.mp hl)
    subst this
    rw [collapseDD] at h
    simp [hasDD] at h
  | succ n ih =>
    intro l hl c h
    rw [collapseDD] at h
    split at h
    · rename_i hdd
      have hlt := replDD_length_lt l hdd
      exact mem_replDD (ih _ (by omega) h)
    · exact h

theorem mem_collapseDD {c : Char} {l : List Char} (h : c ∈ collapseDD l) :
    c ∈ l := mem_collapseDD_aux l.length l le_rfl h

theorem hasDD_collapseDD_aux (n : Nat) : ∀ (l : List Char), l.length ≤ n →
    hasDD (collapseDD l) = false := by
  induction n with
  | zero =>
    intro l hl
    have : l = [] := List.length_eq_zero.mp (Nat.le_zero.mp hl)
    subst this
    rw [collapseDD]
    simp [hasDD]
  | succ n ih =>
    intro l hl
    rw [collapseDD]
    split
    · rename_i hdd
      have hlt := replDD_length_lt l hdd
      exact ih _ (by omega)
    · rename_i hdd
      exact Bool.eq_false_iff.mpr hdd

theorem hasDD_collapseDD (l : List Char) : hasDD (collapseDD l) = false :=
  hasDD_collapseDD_aux l.length l le_rfl

/-- `hasDD` is exactly "`--` occurs as an infix". -/
theorem hasDD_iff_occurs {l : List Char} : hasDD l = true ↔ ['-', '-'] <:+: l := by
  induction l using hasDD.induct with
  | case1 =>
    refine ⟨fun h => by simp [hasDD] at h, fun h => ?_⟩
    have := h.length_le
    simp at this
  | case2 c =>
    refine ⟨fun h => by simp [hasDD] at h, fun h => ?_⟩
    have := h.length_le
    simp at this
  | case3 c d rest ih =>
    rw [hasDD]
    constructor
    · intro h
      rcases Bool.or_eq_true_iff.mp h with h1 | h2
      · obtain ⟨hc, hd⟩ := Bool.and_eq_true_iff.mp h1
        refine ⟨[], rest, ?_⟩
        simp [eq_of_beq hc, eq_of_beq hd]
      · obtain ⟨s, t, hst⟩ := ih.mp h2
        exact ⟨c :: s, t, by simpa using hst⟩
    · intro h
      rcases List.infix_cons_iff.mp h with hpre | hinf
      · obtain ⟨hc, hrest⟩ := List.cons_prefix_cons.mp hpre
        obtain ⟨hd, -⟩ := List.cons_prefix_cons.mp hrest
        simp [← hc, ← hd]
      · rw [ih.mpr hinf]
        simp

theorem hasDD_stripDashes {l : List Char} (h : hasDD l = false) :
    hasDD (pyStripDashes l) = false := by
  by_contra hc
  rw [Bool.not_eq_false] at hc
  have hinf := hasDD_iff_occurs.mp hc
  have h1 : ((l.dropWhile (· = '-')).reverse.dropWhile (· = '-')) <:+
      (l.dropWhile (· = '-')).reverse := List.dropWhile_suffix _
  have h2 : pyStripDashes l <+: (l.dropWhile (· = '-')) := by
    unfold pyStripDashes
    simpa using List.reverse_prefix.mpr h1
  have h3 : (l.dropWhile (· = '-')) <:+ l := List.dropWhile_suffix _
  have : ['-', '-'] <:+: l := (hinf.trans h2.isInfix).trans h3.isInfix
  rw [hasDD_iff_occurs.mpr this] at h
  exact absurd h (by simp)

theorem getLast?_of_suffix {B A : List Char} (h : B <:+ A) (hne : B ≠ []) :
    A.getLast? = B.getLast? := by
  obtain ⟨t, rfl⟩ := h
  rw [List.getLast?_append]
  cases hB : B.getLast? with
  | none => exact absurd (List.getLast?_eq_none_iff.mp hB) hne
  | some b => rfl

theorem head?_stripDashes {l : List Char} {c : Char}
    (h : (pyStripDashes l).head? = some c) : c ≠ '-' := by
  unfold pyStripDashes at h
  rw [List.head?_reverse] at h
  have hB : ((l.dropWhile (· = '-')).reverse.dropWhile (· = '-')) ≠ [] := by
    intro hco
    rw [hco] at h
    simp at h
  rw [← getLast?_of_suffix (List.dropWhile_suffix _) hB, List.getLast?_reverse] at h
  have := List.head?_dropWhile_not (fun x => decide (x = '-')) l
  rw [h] at this
  simpa using this

theorem getLast?_stripDashes {l : List Char} {c : Char}
    (h : (pyStripDashes l).getLast? = some c) : c ≠ '-' := by
  unfold pyStripDashes at h
  rw [List.getLast?_reverse] at h
  have := List.head?_dropWhile_not (fun x => decide (x = '-'))
    (l.dropWhile (· = '-')).reverse
  rw [h] at this
  simpa using this

theorem stripDashes_eq_self {l : List Char}
    (h1 : ∀ c, l.head? = some c → c ≠ '-')
    (h2 : ∀ c, l.getLast? = some c → c ≠ '-') :
    pyStripDashes l = l := by
  unfold pyStripDashes
  have e1 : l.dropWhile (· = '-') = l := by
    cases l with
    | nil => rfl
    | cons a t =>
      rw [List.dropWhile_cons, if_neg]
      simp only [decide_eq_true_eq]
      exact h1 a rfl
  rw [e1]
  cases hrev : l.reverse with
  | nil => simp [List.reverse_eq_nil_iff.mp hrev]
  | cons b t' =>
    have hb : b ≠ '-' := by
      refine h2 b ?_
      rw [← List.head?_reverse, hrev]
      rfl
    rw [List.dropWhile_cons, if_neg (by simpa using hb), ← hrev,
      List.reverse_reverse]

theorem mem_pyStripDashes {c : Char} {l : List Char}
    (h : c ∈ pyStripDashes l) : c ∈ l := by
  unfold pyStripDashes at h
  rw [List.mem_reverse] at h
  have h2 := (List.dropWhile_suffix (l := (l.dropWhile (· = '-')).reverse)
    (p := (· = '-'))).subset h
  rw [List.mem_reverse] at h2
  exact (List.dropWhile_suffix (l := l) (p := (· = '-'))).subset h2

/-- The point function of `pyReplaceChar` keeps `pyLower`-fixedness, as
long as the replacement character is `'-'`. -/
theorem pyLower_fix_replPoint (a d : Char) (hd : pyLower d = d) :
    pyLower (if d = a then '-' else d) = (if d = a then '-' else d) := by
  by_cases hda : d = a
  · rw [if_pos hda]
    decide
  · rw [if_neg hda]
    exact hd

/-- A character of `azSlugify x` is alphanumeric or a hyphen, and is fixed
by `pyLower`. -/
theorem mem_azSlugify {x : String} {c : Char} (h : c ∈ (azSlugify x).data) :
    (c.isAlphanum = true ∨ c = '-') ∧ pyLower c = c := by
  have h1 : c ∈ collapseDD
      (((pyReplaceChar '_' '-' (pyReplaceChar '.' '-' (pyReplaceChar '/' '-'
        (pyReplaceChar ' ' '-' (x.data.map pyLower)))))).filter
        (fun c => c.isAlphanum || c = '-')) := mem_pyStripDashes h
  have h2 := mem_collapseDD h1
  obtain ⟨h3, hpred⟩ := List.mem_filter.mp h2
  refine ⟨by simpa using hpred, ?_⟩
  simp only [pyReplaceChar, List.mem_map] at h3
  obtain ⟨d4, ⟨d3, ⟨d2, ⟨d1, ⟨a, -, rfl⟩, rfl⟩, rfl⟩, rfl⟩, rfl⟩ := h3
  exact pyLower_fix_replPoint _ _ (pyLower_fix_replPoint _ _
    (pyLower_fix_replPoint _ _ (pyLower_fix_replPoint _ _ (pyLower_idem a))))

theorem azSlugify_noDD (x : String) : hasDD (azSlugify x).data = false :=
  hasDD_stripDashes (hasDD_collapseDD _)

theorem azSlugify_head {x : String} {c : Char}
    (h : (azSlugify x).data.head? = some c) : c ≠ '-' :=
  head?_stripDashes h

theorem azSlugify_last {x : String} {c : Char}
    (h : (azSlugify x).data.getLast? = some c) : c ≠ '-' :=
  getLast?_stripDashes h

theorem azSlugify_idem (x : String) : azSlugify (azSlugify x) = azSlugify x := by
  have hy : ∀ c ∈ (azSlugify x).data,
      (c.isAlphanum = true ∨ c = '-') ∧ pyLower c = c :=
    fun c hc => mem_azSlugify hc
  have e1 : (azSlugify x).data.map pyLower = (azSlugify x).data :=
    map_eq_self_of (fun c hc => (hy c hc).2)
  have erep : ∀ a : Char, a.isAlphanum = false → a ≠ '-' →
      pyReplaceChar a '-' (azSlugify x).data = (azSlugify x).data := by
    intro a hna hnd
    refine map_eq_self_of (fun c hc => ?_)
    rw [if_neg]
    intro hco
    subst hco
    rcases (hy c hc).1 with h | h
    · rw [h] at hna; exact absurd hna (by simp)
    · exact hnd h
  have e6 : (azSlugify x).data.filter (fun c => c.isAlphanum || c = '-') =
      (azSlugify x).data := by
    refine List.filter_eq_self.mpr (fun c hc => ?_)
    rcases (hy c hc).1 with h | h <;> simp [h]
  have e7 : collapseDD (azSlugify x).data = (azSlugify x).data := by
    rw [collapseDD, dif_neg]
    rw [azSlugify_noDD x]
    simp
  have e8 : pyStripDashes (azSlugify x).data = (azSlugify x).data :=
    stripDashes_eq_self (fun c hc => azSlugify_head hc)
      (fun c hc => azSlugify_last hc)
  show (⟨pyStripDashes (collapseDD
    ((pyReplaceChar '_' '-' (pyReplaceChar '.' '-' (pyReplaceChar '/' '-'
      (pyReplaceChar ' ' '-' ((azSlugify x).data.map pyLower))))).filter
      (fun c => c.isAlphanum || c = '-')))⟩ : String) = azSlugify x
  rw [e1, erep ' ' (by decide) (by decide), erep '/' (by decide) (by decide),
    erep '.' (by decide) (by decide), erep '_' (by decide) (by decide), e6, e7, e8]

/-- A character of `cliSlugify x` is fixed by `pyLower` and is neither a
space nor a slash. -/
theorem mem_cliSlugify {x : String} {c : Char} (h : c ∈ (cliSlugify x).data) :
    pyLower c = c ∧ c ≠ ' ' ∧ c ≠ '/' := by
  have h3 : c ∈ pyReplaceChar '/' '-' (pyReplaceChar ' ' '-' (x.data.map pyLower)) := h
  simp only [pyReplaceChar, List.mem_map] at h3
  obtain ⟨d2, ⟨d1, ⟨a, -, rfl⟩, rfl⟩, rfl⟩ := h3
  refine ⟨pyLower_fix_replPoint _ _ (pyLower_fix_replPoint _ _ (pyLower_idem a)), ?_, ?_⟩
  · by_cases h1 : pyLower a = ' '
    · rw [if_pos h1]
      by_cases h2 : ('-' : Char) = '/'
      · simp at h2
      · rw [if_neg h2]; decide
    · rw [if_neg h1]
      by_cases h2 : pyLower a = '/'
      · rw [if_pos h2]; decide
      · rw [if_neg h2]; exact h1
  · by_cases h1 : pyLower a = ' '
    · rw [if_pos h1]
      rw [if_neg (by decide : ¬('-' : Char) = '/')]
      decide
    · rw [if_neg h1]
      by_cases h2 : pyLower a = '/'
      · rw [if_pos h2]; decide
      · rw [if_neg h2]; exact h2

theorem cliSlugify_idem (x : String) : cliSlugify (cliSlugify x) = cliSlugify x := by
  have hy := fun c hc => @mem_cliSlugify x c hc
  have e1 : (cliSlugify x).data.map pyLower = (cliSlugify x).data :=
    map_eq_self_of (fun c hc => (hy c hc).1)
  have e2 : pyReplaceChar ' ' '-' (cliSlugify x).data = (cliSlugify x).data :=
    map_eq_self_of (fun c hc => if_neg (hy c hc).2.1)
  have e3 : pyReplaceChar '/' '-' (cliSlugify x).data = (cliSlugify x).data :=
    map_eq_self_of (fun c hc => if_neg (hy c hc).2.2)
  show (⟨pyReplaceChar '/' '-' (pyReplaceChar ' ' '-'
    ((cliSlugify x).data.map pyLower))⟩ : String) = cliSlugify x
  rw [e1, e2, e3]

/-- C7 counterexample: the CLI `slugify` (one of the two slug functions the
spec's property ranges over) maps `"a  b"` to `"a--b"`, which contains two
consecutive hyphens — it performs no hyphen collapsing or trimming. -/
theorem C7_counterexample :
    cliSlugify "a  b" = "a--b" ∧ hasDD (cliSlugify "a  b").data = true :=
  ⟨by decide, by decide⟩

/-- C7 as amended: the aztecjs `slugify` is idempotent and its output never
contains two consecutive hyphens, a leading hyphen, or a trailing hyphen;
the CLI `slugify` is idempotent as well, but does not enjoy the hyphen
shape properties (see the counterexample). -/
theorem C7_amended_slug_properties (x : String) :
    azSlugify (azSlugify x) = azSlugify x ∧
    hasDD (azSlugify x).data = false ∧
    (∀ c, (azSlugify x).data.head? = some c → c ≠ '-') ∧
    (∀ c, (azSlugify x).data.getLast? = some c → c ≠ '-') ∧
    cliSlugify (cliSlugify x) = cliSlugify x :=
  ⟨azSlugify_idem x, azSlugify_noDD x,
   fun _ hc => azSlugify_head hc, fun _ hc => azSlugify_last hc,
   cliSlugify_idem x⟩

/-! ### C8 -/

/-- A leaf commander node for the C8 counterexample. -/
def c8child : ScanNode :=
  { format := some "commander", usage := some "u", description := some "d",
    options := some [], commands := some [], subcommands := [] }

/-- A root commander node with one subcommand `sub`. -/
def c8root : ScanNode :=
  { format := some "commander", usage := some "", description := some "",
    options := some [], commands := some [], subcommands := [("sub", c8child)] }

/-- The render configuration of the C8 counterexample: `max_depth = 1`. -/
def c8cfg : RenderConfig := { max_depth := 1 }

/-- C8 counterexample: with `max_depth = 1`, rendering the two-level tree
the way `generate` does (TOC walked from depth 0, body from depth 1), the
subcommand `aztec sub` appears in the table of contents but NOT in the
body — the claimed "in the TOC iff in the body" fails, because the body
walk starts one depth level higher than the TOC walk. -/
theorem C8_counterexample :
    containsSub "aztec sub".data
      (generate_toc (c8cfg.max_depth + 2) c8cfg c8root "aztec" 0).data = true ∧
    containsSub "aztec sub".data
      (generate_command_docs (c8cfg.max_depth + 2) c8cfg "aztec" c8root 1).data =
      false :=
  ⟨by decide, by decide⟩

/-- C8 as amended: beyond `max_depth` the subtree is silently omitted from
both walks — any TOC or body rendering call whose depth parameter exceeds
`max_depth` returns the empty string (for every fuel) — but the two walks
are invoked at different starting depths (TOC at the node's structural
depth, body at structural depth + 1), so a node at structural depth
exactly `max_depth` is kept in the TOC while its body rendering is
dropped, as the counterexample shows. -/
theorem C8_amended_beyond_max_depth_empty (fuel : Nat) (cfg : RenderConfig)
    (node : ScanNode) (name : String) (depth : Nat)
    (h : depth > cfg.max_depth) :
    generate_toc fuel cfg node name depth = "" ∧
    generate_command_docs fuel cfg name node depth = "" := by
  cases fuel with
  | zero => exact ⟨rfl, rfl⟩
  | succ fuel =>
    constructor
    · rw [generate_toc, if_pos h]
    · rw [generate_command_docs, if_pos h]

/-- Witness for the amended C8 at a concrete input: default configuration
(`max_depth = 5`), depth 6. -/
theorem C8_amended_witness :
    (6 > ({ } : RenderConfig).max_depth) ∧
    generate_toc 7 { } c8child "aztec sub" 6 = "" ∧
    generate_command_docs 7 { } "aztec sub" c8child 6 = "" :=
  ⟨by decide, C8_amended_beyond_max_depth_empty 7 { } c8child "aztec sub" 6 (by decide)⟩

end AztecCliDocs
